import Mathlib

set_option autoImplicit false

/-!
Verification of the rich-text editing core of this repository: the
suggestion/command-palette overlay (`SuggestionsMenu`), the selection
toolbar (`SelectionToolbar`), and the extension presets
(`shared/editor/nodes/index.ts`).

The definitions below are a shallow embedding of the TypeScript source.
JavaScript numbers that take part only in ordering and affine arithmetic
are modelled as rationals; JavaScript `undefined` is modelled with
`Option`; JS truthiness of a string is the test against `""`.
External collaborators (the `command-score` npm package, the ProseMirror
view) are modelled as explicit parameters carrying the values the code
reads from them.
-/

/-- Menu item as consumed by the `filtered` pipeline of
`SuggestionsMenu.tsx` (lines 339-404): fields `name`, `title`,
`keywords`, `defaultHidden` from `MenuItem`, plus `visible` which is
read off `EmbedDescriptor`s.  `none` models a JS `undefined` field; the
JS truthiness tests on `name` compare against `""`. -/
structure MItem where
  name : String
  title : Option String
  keywords : Option String
  defaultHidden : Bool
  visible : Option Bool
deriving DecidableEq, Repr

/-- Truthiness of `item.name === "separator"` used throughout the menu code. -/
def isSep (i : MItem) : Bool := i.name = "separator"

/-- JS truthiness of an optional string field (`undefined` and `""` are falsy). -/
def strTruthy (t : Option String) : Bool := t.getD "" ≠ ""

/-- ASCII model of `String.prototype.toLowerCase`. -/
def lowerStr (s : String) : String := ⟨s.data.map Char.toLower⟩

/-- Substring test on character lists, modelling `String.prototype.includes`. -/
def charsInclude (hay needle : List Char) : Bool :=
  hay.tails.any (fun t => needle.isPrefixOf t)

/-- Model of `hay.toLowerCase().includes(needleLower)` where `needleLower`
is already lower-cased (as `searchInput` is in the source). -/
def includesLower (hay : String) (needleLower : String) : Bool :=
  charsInclude (hay.data.map Char.toLower) needleLower.data

/-- Model of lodash `capitalize`: first character upper-cased, the rest
lower-cased, as used to build the `create...` fallback command name. -/
def capitalizeWord (s : String) : String :=
  match s.data with
  | [] => ""
  | c :: cs => ⟨c.toUpper :: cs.map Char.toLower⟩

/-- Modelled from the spec: `filterExcessSeparators`
(`@shared/editor/lib/filterExcessSeparators`, imported by both
components but not part of the given sources).  Per the spec it
collapses consecutive, leading and trailing separators so that at most
one separator remains between runs of real items.  `collapseAdjSeps`
drops a separator whose predecessor was kept as a separator. -/
def collapseAdjSeps (prevSep : Bool) : List MItem → List MItem
  | [] => []
  | a :: rest =>
      if prevSep && isSep a then collapseAdjSeps true rest
      else a :: collapseAdjSeps (isSep a) rest

/-- Modelled from the spec: removal of trailing separators, part of
`filterExcessSeparators`. -/
def dropTrailingSeps (l : List MItem) : List MItem :=
  (l.reverse.dropWhile isSep).reverse

/-- Modelled from the spec: `filterExcessSeparators` drops leading
separators, collapses adjacent ones, and drops trailing ones. -/
def filterExcessSeparators (l : List MItem) : List MItem :=
  dropTrailingSeps (collapseAdjSeps false (l.dropWhile isSep))

/-- Stable insertion with a JS comparator: `x` is placed after every
prefix element `y` with `comparator(y, x) <= 0` and before the first
with a positive comparison, the standard comparator contract of
`Array.prototype.sort`. -/
def insertComparator {α : Type} (c : α → α → ℚ) (x : α) : List α → List α
  | [] => [x]
  | y :: ys => if c y x ≤ 0 then y :: insertComparator c x ys else x :: y :: ys

/-- Stable comparator sort modelling `Array.prototype.sort(comparator)`. -/
def sortComparator {α : Type} (c : α → α → ℚ) (l : List α) : List α :=
  l.foldl (fun acc x => insertComparator c x acc) []

/-- Sort key of the menu sort step (`SuggestionsMenu.tsx` lines 400-402):
`searchInput && item.title ? commandScore(item.title, searchInput) : 0`.
The external `command-score` package is the parameter `score`. -/
def menuSortKey (score : String → String → ℚ) (searchInput : String) (item : MItem) : ℚ :=
  if searchInput ≠ "" && strTruthy item.title then score (item.title.getD "") searchInput else 0

/-- Filter predicate of the `filtered` pipeline (`SuggestionsMenu.tsx`
lines 365-397), transcribed branch for branch.  `commands` tells whether
a command name is present in the editor command table. -/
def menuFilterPred (commands : String → Bool) (uploadFile filterable : Bool)
    (search searchInput : String) (item : MItem) : Bool :=
  if item.name = "separator" then true
  else if item.name ≠ "" && !commands item.name
      && !commands ("create" ++ capitalizeWord item.name) then false
  else if !uploadFile && item.name = "image" then false
  else if search = "" then !item.defaultHidden
  else if !filterable then true
  else includesLower (item.title.getD "") searchInput
      || includesLower (item.keywords.getD "") searchInput

/-- The separator entry `{ name: "separator" }` inserted between the
static items and the embed descriptors. -/
def separatorItem : MItem :=
  { name := "separator", title := none, keywords := none, defaultHidden := false, visible := none }

/-- Embed descriptors admitted into the menu (`SuggestionsMenu.tsx`
lines 344-353): those with a truthy title and `visible !== false`,
renamed to `"embed"`. -/
def embedMenuItems (embeds : List MItem) : List MItem :=
  (embeds.filter (fun e => strTruthy e.title && e.visible ≠ some false)).map
    (fun e => { e with name := "embed" })

/-- The complete `filtered` pipeline of `SuggestionsMenu.tsx`
(lines 339-404): append a separator and the embed items when any embed
survives, filter, sort with the one-argument comparator passed to
`Array.prototype.sort`, and collapse excess separators. -/
def menuFiltered (commands : String → Bool) (score : String → String → ℚ)
    (uploadFile filterable : Bool) (search : String)
    (embeds propsItems : List MItem) : List MItem :=
  let embedItems := embedMenuItems embeds
  let items := if embedItems.length ≠ 0 then propsItems ++ separatorItem :: embedItems else propsItems
  let searchInput := lowerStr search
  let filtered := items.filter (menuFilterPred commands uploadFile filterable search searchInput)
  filterExcessSeparators (sortComparator (fun a _ => menuSortKey score searchInput a) filtered)

/-- Keyboard event fields read by the window `keydown` handler. -/
structure KeyEvt where
  key : String
  shiftKey : Bool
  ctrlKey : Bool
deriving DecidableEq, Repr

/-- Observable outcome of the window `keydown` handler of
`SuggestionsMenu` (lines 418-483). -/
inductive KeyAction where
  | noAction
  | clickItem (idx : Nat)
  | closeNewline
  | setIndex (i : Nat)
  | closeMenu
deriving DecidableEq, Repr

/-- JS array indexing where a negative index yields `undefined`. -/
def jsIndex (l : List MItem) (i : Int) : Option MItem :=
  if i < 0 then none else l[i.toNat]?

/-- Window `keydown` handler of `SuggestionsMenu` (lines 418-483),
transcribed: the `isActive` guard, Enter commit/close, the
previous/next chords with separator skip and clamping, and Escape. -/
def handleKeyDown (isActive : Bool) (e : KeyEvt) (filtered : List MItem)
    (selectedIndex : Nat) : KeyAction :=
  if !isActive then .noAction
  else if e.key = "Enter" then
    match filtered[selectedIndex]? with
    | some _ => .clickItem selectedIndex
    | none => .closeNewline
  else if e.key = "ArrowUp" || (e.key = "Tab" && e.shiftKey) || (e.ctrlKey && e.key = "p") then
    if filtered.length ≠ 0 then
      let prevIndex : Int := (selectedIndex : Int) - 1
      let prevIsSep := ((jsIndex filtered prevIndex).map isSep).getD false
      .setIndex (max 0 (if prevIsSep then prevIndex - 1 else prevIndex)).toNat
    else .closeMenu
  else if e.key = "ArrowDown" || (e.key = "Tab" && !e.shiftKey) || (e.ctrlKey && e.key = "n") then
    if filtered.length ≠ 0 then
      let total := filtered.length - 1
      let nextIndex := selectedIndex + 1
      let nextIsSep := ((filtered[nextIndex]?).map isSep).getD false
      .setIndex (min (if nextIsSep then nextIndex + 1 else nextIndex) total)
    else .closeMenu
  else if e.key = "Escape" then .closeMenu
  else .noAction

/-- Rectangle with the four fields the positioner reads from
`view.coordsAtPos` results and from `getBoundingClientRect`. -/
structure JSRect where
  top : ℚ
  bottom : ℚ
  left : ℚ
  right : ℚ
deriving DecidableEq, Repr

/-- The `Position` object produced by `calculatePosition`: each
coordinate is either a number or `undefined`. -/
structure PosOut where
  top : Option ℚ
  bottom : Option ℚ
  left : Option ℚ
  right : Option ℚ
  isAbove : Bool
deriving DecidableEq, Repr

/-- The `defaultPosition` constant (`SuggestionsMenu.tsx` lines 46-52). -/
def defaultPosition : PosOut :=
  { top := some 0, bottom := none, left := some (-10000), right := none, isAbove := false }

/-- The `caretPosition` helper (lines 95-118): on lookup failure the
`catch` returns the zero rectangle; otherwise the min/max-normalised
union of the start and end caret rectangles. -/
def caretRect (lookup : Option (JSRect × JSRect)) : JSRect :=
  match lookup with
  | none => ⟨0, 0, 0, 0⟩
  | some (fromPos, toPos) =>
      ⟨min fromPos.top toPos.top, max fromPos.bottom toPos.bottom,
       min fromPos.left toPos.left, max fromPos.right toPos.right⟩

/-- The `calculatePosition` callback (`SuggestionsMenu.tsx` lines
89-163).  `lookup` is the result of the two `view.coordsAtPos` calls
(`none` when they throw), `refMeasure` is `(offsetWidth, offsetHeight)`
of the mounted panel (`none` when `menuRef.current` is null, in which
case both read as `0`), `offsetParentRect` is the bounding rect of
`ref.offsetParent` (`none` models the fallback object, whose `top` and
`left` read as `0` and whose `bottom` is absent). -/
def calculatePosition (isActive rtl : Bool) (lookup : Option (JSRect × JSRect))
    (refMeasure : Option (ℚ × ℚ)) (offsetParentRect : Option JSRect)
    (innerWidth : ℚ) : PosOut :=
  if !isActive then defaultPosition
  else
    let offsetWidth := (refMeasure.map Prod.fst).getD 0
    let offsetHeight := (refMeasure.map Prod.snd).getD 0
    let rect := caretRect lookup
    let margin : ℚ := 12
    let parentTop := (offsetParentRect.map JSRect.top).getD 0
    let parentLeft := (offsetParentRect.map JSRect.left).getD 0
    let parentBottom := offsetParentRect.map JSRect.bottom
    let leftPos := if rtl then rect.right - offsetWidth
      else min (rect.left - parentLeft) (innerWidth - parentLeft - offsetWidth - margin)
    if rect.top - offsetHeight > margin then
      { top := none, bottom := parentBottom.map (fun b => b - rect.top),
        left := some leftPos, right := none, isAbove := false }
    else
      { top := some (rect.bottom - parentTop), bottom := none,
        left := some leftPos, right := none, isAbove := true }

/-- Shape of the current ProseMirror selection as discriminated by
`useIsActive`: a `NodeSelection` with its node type name, a
`TextSelection`, or any other selection class. -/
inductive SelKind where
  | nodeSel (typeName : String)
  | textSel
  | otherSel
deriving DecidableEq, Repr

/-- The data `useIsActive` (`SuggestionsMenu.tsx` lines 705-737) reads
from the editor state: whether a link mark covers the position
(`isMarkActive(schema.marks.link)`), the selection and its emptiness,
`doc.cut(from, to).textContent`, and `n.content.size` for each node of
`selection.content().content`. -/
structure PMState where
  linkMarkActive : Bool
  hasSelection : Bool
  selEmpty : Bool
  selKind : SelKind
  selTextContent : String
  contentNodeSizes : List Nat
deriving DecidableEq, Repr

/-- The `useIsActive` activation predicate of the selection toolbar,
transcribed from `SuggestionsMenu.tsx` lines 705-737. -/
def useIsActive (s : PMState) : Bool :=
  if s.linkMarkActive then true
  else if !s.hasSelection || s.selEmpty then false
  else match s.selKind with
    | .nodeSel t => if t = "hr" then true else if t = "image" then true else false
    | .textSel =>
        if s.selTextContent = "" then false
        else s.contentNodeSizes.any (fun n => n ≠ 0)
    | .otherSel => s.contentNodeSizes.any (fun n => n ≠ 0)

/-- Activation predicate exactly as the spec words it (C5): active iff a
link mark covers the position, or the selection is non-empty and is a
node selection of `hr` or `image`, or the selection is non-empty, is
not a node selection, and its content contains a non-empty node.  Kept
separate from `useIsActive` so the two can be compared. -/
def specToolbarActive (s : PMState) : Bool :=
  s.linkMarkActive ||
  (s.hasSelection && !s.selEmpty &&
    (match s.selKind with
     | .nodeSel t => t == "hr" || t == "image"
     | _ => s.contentNodeSizes.any (fun n => n ≠ 0)))

/-- Amended activation predicate: the spec's wording plus the guard the
source actually has, that a text selection whose selected text is empty
is inactive even when its content holds a non-empty node. -/
def amendedToolbarActive (s : PMState) : Bool :=
  s.linkMarkActive ||
  (s.hasSelection && !s.selEmpty &&
    (match s.selKind with
     | .nodeSel t => t == "hr" || t == "image"
     | .textSel => !(s.selTextContent == "") && s.contentNodeSizes.any (fun n => n ≠ 0)
     | .otherSel => s.contentNodeSizes.any (fun n => n ≠ 0)))

/-- The item held in the `insertItem` state slot while the link-editing
sub-state is shown; `matcher` is the embed's matcher predicate, absent
for items without one (the `"matcher" in insertItem` test). -/
structure InsertItem where
  title : Option String
  matcher : Option (String → Bool)

/-- Result of `"matcher" in insertItem && insertItem.matcher(href)`. -/
def matcherAccepts (it : InsertItem) (href : String) : Bool :=
  (it.matcher.map (fun m => m href)).getD false

/-- Observable effects of the link-input paste handler: which embed
commit (if any) was dispatched, whether a toast was shown, whether the
event's default was prevented, and whether the overlay was closed
(`insertNode` ends in `onClose`). -/
structure PasteEffects where
  committedHref : Option String
  toastShown : Bool
  defaultPrevented : Bool
  menuClosed : Bool
deriving DecidableEq, Repr

/-- The `handleLinkInputPaste` handler (`SuggestionsMenu.tsx` lines
271-295): on a matching paste it prevents the default and commits the
embed via `insertNode`; on a non-matching paste it does nothing. -/
def handleLinkInputPaste (isActive : Bool) (insertItem : Option InsertItem)
    (pasted : String) : PasteEffects :=
  if !isActive then ⟨none, false, false, false⟩
  else match insertItem with
    | none => ⟨none, false, false, false⟩
    | some it =>
        if matcherAccepts it pasted then ⟨some pasted, false, true, true⟩
        else ⟨none, false, false, false⟩

/-- Observable effects of the link-input keydown handler. -/
structure LinkKeyEffects where
  committedHref : Option String
  toastShown : Bool
  menuClosed : Bool
deriving DecidableEq, Repr

/-- The `handleLinkInputKeydown` handler (`SuggestionsMenu.tsx` lines
235-269): Enter validates against the matcher, showing the
invalid-link toast and staying in the sub-state on failure, committing
the embed on success; Escape closes. -/
def handleLinkInputKeydown (isActive : Bool) (insertItem : Option InsertItem)
    (key : String) (value : String) : LinkKeyEffects :=
  if !isActive then ⟨none, false, false⟩
  else match insertItem with
    | none => ⟨none, false, false⟩
    | some it =>
        if key = "Enter" then
          if matcherAccepts it value then ⟨some value, false, true⟩
          else ⟨none, true, false⟩
        else if key = "Escape" then ⟨none, false, true⟩
        else ⟨none, false, false⟩

/-- Extension descriptors referenced by `shared/editor/nodes/index.ts`. -/
inductive ExtName where
  | doc | paragraph | emoji | text | simpleImage | bold | code | italic
  | underline | link | strikethrough | history | smartText | trailingNode
  | pasteHandler | placeholder | maxLength | dateTime | keys
  | clipboardTextSerializer
  | image | hardBreak | codeBlock | codeFence | checkboxList | checkboxItem
  | blockquote | bulletList | orderedList | embed | listItem | attachment
  | notice | heading | horizontalRule | table | tableCell | tableHeadCell
  | tableRow | highlight | templatePlaceholder | folding | blockMenuTrigger
  | math | mathBlock | preventTab | mention | comment
deriving DecidableEq, Repr

/-- The `basicExtensions` preset (`shared/editor/nodes/index.ts` lines 59-80). -/
def basicExtensions : List ExtName :=
  [.doc, .paragraph, .emoji, .text, .simpleImage, .bold, .code, .italic,
   .underline, .link, .strikethrough, .history, .smartText, .trailingNode,
   .pasteHandler, .placeholder, .maxLength, .dateTime, .keys,
   .clipboardTextSerializer]

/-- The `richExtensions` preset (`shared/editor/nodes/index.ts` lines
86-114): the basic list with `SimpleImage` filtered out, followed by
the additional rich descriptors. -/
def richExtensions : List ExtName :=
  basicExtensions.filter (fun n => n ≠ .simpleImage) ++
  [.image, .hardBreak, .codeBlock, .codeFence, .checkboxList, .checkboxItem,
   .blockquote, .bulletList, .orderedList, .embed, .listItem, .attachment,
   .notice, .heading, .horizontalRule, .table, .tableCell, .tableHeadCell,
   .tableRow, .highlight, .templatePlaceholder, .folding, .blockMenuTrigger,
   .math, .mathBlock, .preventTab]

/-- The `withComments` preset variant (line 119). -/
def withComments (nodes : List ExtName) : List ExtName :=
  .mention :: .comment :: nodes

/-- Whether the window-listener effect of `SuggestionsMenu` (lines
406-496) registers its `mousedown`/`keydown` listeners: the effect body
calls `window.addEventListener` unconditionally, with no guard on
`isActive`; the `isActive` prop is consulted only inside the keydown
handler. -/
def suggestionsMenuAddsWindowListeners (_isActive : Bool) : Bool := true

/-- Whether the window-listener effect of `SelectionToolbar` (lines
758-787) registers its `mouseup` listener: registration is
unconditional; `isActive` is consulted only inside the handler. -/
def selectionToolbarAddsWindowListener (_isActive : Bool) : Bool := true

/-- Whether the `mousedown` handler of `SuggestionsMenu` (lines 407-416)
invokes `props.onClose()`: it returns early only when the menu element
is missing or the target is inside it; it performs no `isActive` check. -/
def suggestionsMenuOutsideMousedownCloses (menuElemExists targetInsideMenu : Bool) : Bool :=
  if !menuElemExists then false
  else if targetInsideMenu then false
  else true

/-- Whether the `mouseup` handler of `SelectionToolbar` (lines 759-780)
dispatches the collapse-to-start transaction: it returns early when the
target is inside the toolbar, when the toolbar is inactive or the
active element is an input, or when the view has focus. -/
def selectionToolbarOutsideMouseupDispatches
    (targetInsideMenu isActive activeElementIsInput viewHasFocus : Bool) : Bool :=
  if targetInsideMenu then false
  else if !isActive || activeElementIsInput then false
  else if viewHasFocus then false
  else true

/-- The transaction dispatched by `handleOnCreateLink`: a link mark
removal/addition over the stored range with the placeholder href. -/
structure LinkMarkTx where
  markFrom : Nat
  markTo : Nat
  href : String
deriving DecidableEq, Repr

/-- The `handleOnCreateLink` action of `SelectionToolbar`
(`SuggestionsMenu.tsx` lines 789-818): without an `onCreateLink`
collaborator, or with a collapsed selection (`from === to`), it returns
before dispatching; otherwise it dispatches the placeholder link mark
over the selection.  `urlBase` is the `creatingUrlPrefix` constant from
`@shared/utils/urls`. -/
def handleOnCreateLink (hasOnCreateLink : Bool) (selFrom selTo : Nat)
    (urlBase title : String) : Option LinkMarkTx :=
  if !hasOnCreateLink then none
  else if selFrom = selTo then none
  else some ⟨selFrom, selTo, urlBase ++ title ++ "…"⟩

/-- Item list of the C6 scenario: the first heading entry. -/
def scenarioHeading1 : MItem :=
  { name := "heading1", title := some "Big heading", keywords := none, defaultHidden := false, visible := none }

/-- Item list of the C6 scenario: the second heading entry. -/
def scenarioHeading2 : MItem :=
  { name := "heading2", title := some "Medium heading", keywords := none, defaultHidden := false, visible := none }

/-- Item list of the C6 scenario: the image entry, to be dropped because
no upload capability is supplied. -/
def scenarioImage : MItem :=
  { name := "image", title := some "Image", keywords := none, defaultHidden := false, visible := none }

/-- Concrete embed descriptor used to exercise the separator-inserting
branch of the pipeline. -/
def embedTube : MItem :=
  { name := "", title := some "YouTube", keywords := none, defaultHidden := false, visible := none }

/-- Concrete editor state: no link mark, a non-empty text selection whose
selected text is empty while its content holds a non-empty node (for
example a selection spanning a paragraph that contains only an image). -/
def emptyTextSelState : PMState :=
  { linkMarkActive := false, hasSelection := true, selEmpty := false, selKind := .textSel,
    selTextContent := "", contentNodeSizes := [2] }

/-- Concrete embed item whose matcher rejects every input. -/
def rejectingEmbed : InsertItem := { title := some "YouTube", matcher := some (fun _ => false) }

/-- Membership is preserved by a single comparator insertion. -/
theorem mem_insertComparator {α : Type} {c : α → α → ℚ} {x a : α} :
    ∀ {l : List α}, a ∈ insertComparator c x l → a = x ∨ a ∈ l := by
  intro l
  induction l with
  | nil => simp [insertComparator]
  | cons y ys ih =>
    simp only [insertComparator]
    split
    · intro h
      rcases List.mem_cons.mp h with h | h
      · exact Or.inr (h ▸ List.mem_cons_self _ _)
      · rcases ih h with h | h
        · exact Or.inl h
        · exact Or.inr (List.mem_cons_of_mem _ h)
    · intro h
      rcases List.mem_cons.mp h with h | h
      · exact Or.inl h
      · exact Or.inr h

/-- Membership is preserved by the insertion fold of the comparator sort. -/
theorem mem_foldl_insertComparator {α : Type} {c : α → α → ℚ} {a : α} :
    ∀ {l acc : List α}, a ∈ List.foldl (fun acc x => insertComparator c x acc) acc l →
      a ∈ acc ∨ a ∈ l := by
  intro l
  induction l with
  | nil => intro acc h; exact Or.inl h
  | cons x xs ih =>
    intro acc h
    rcases ih h with h | h
    · rcases mem_insertComparator h with h | h
      · exact Or.inr (h ▸ List.mem_cons_self _ _)
      · exact Or.inl h
    · exact Or.inr (List.mem_cons_of_mem _ h)

/-- Sorting with a comparator never introduces elements. -/
theorem mem_sortComparator {α : Type} {c : α → α → ℚ} {a : α} {l : List α}
    (h : a ∈ sortComparator c l) : a ∈ l := by
  rcases mem_foldl_insertComparator h with h | h
  · simp at h
  · exact h

/-- Collapsing adjacent separators never introduces elements. -/
theorem mem_collapseAdjSeps {a : MItem} :
    ∀ (l : List MItem) (b : Bool), a ∈ collapseAdjSeps b l → a ∈ l := by
  intro l
  induction l with
  | nil => intro b h; simp [collapseAdjSeps] at h
  | cons y ys ih =>
    intro b h
    simp only [collapseAdjSeps] at h
    by_cases hc : (b && isSep y) = true
    · rw [if_pos hc] at h
      exact List.mem_cons_of_mem _ (ih _ h)
    · rw [if_neg hc] at h
      rcases List.mem_cons.mp h with h | h
      · exact h ▸ List.mem_cons_self _ _
      · exact List.mem_cons_of_mem _ (ih _ h)

/-- Dropping trailing separators never introduces elements. -/
theorem mem_dropTrailingSeps {a : MItem} {l : List MItem} (h : a ∈ dropTrailingSeps l) : a ∈ l := by
  unfold dropTrailingSeps at h
  rw [List.mem_reverse] at h
  have h2 := (List.dropWhile_sublist isSep).mem h
  exact List.mem_reverse.mp h2

/-- Separator collapsing never introduces elements. -/
theorem mem_filterExcessSeparators {a : MItem} {l : List MItem}
    (h : a ∈ filterExcessSeparators l) : a ∈ l := by
  unfold filterExcessSeparators at h
  have h1 := mem_dropTrailingSeps h
  have h2 := mem_collapseAdjSeps _ _ h1
  exact (List.dropWhile_sublist isSep).mem h2

/-- Head of a `dropWhile` result fails the dropped predicate. -/
theorem head_dropWhile_false {α : Type} {p : α → Bool} :
    ∀ {l : List α} {a : α}, (l.dropWhile p).head? = some a → p a = false := by
  intro l
  induction l with
  | nil => intro a h; simp at h
  | cons y ys ih =>
    intro a h
    rw [List.dropWhile_cons] at h
    by_cases hc : p y = true
    · rw [if_pos hc] at h
      exact ih h
    · rw [if_neg hc] at h
      simp at h
      subst h
      exact eq_false_of_ne_true hc

/-- The collapsed candidate list never ends in a separator. -/
theorem getLast_filterExcessSeparators {l : List MItem} {a : MItem}
    (h : (filterExcessSeparators l).getLast? = some a) : isSep a = false := by
  unfold filterExcessSeparators dropTrailingSeps at h
  rw [List.getLast?_reverse] at h
  exact head_dropWhile_false h

/-- The next chord at the final index stays at the final index. -/
theorem handleKeyDown_next_at_last {l : List MItem} (hne : l ≠ []) :
    handleKeyDown true ⟨"ArrowDown", false, false⟩ l (l.length - 1) = .setIndex (l.length - 1) := by
  have hpos : 0 < l.length := List.length_pos.mpr hne
  have hlen : l.length ≠ 0 := by omega
  have h1 : l.length - 1 + 1 = l.length := by omega
  have h2 : l[l.length]? = none := by simp
  simp [handleKeyDown, hlen, h1, h2]

/-- The previous chord at index zero stays at index zero. -/
theorem handleKeyDown_prev_at_zero {l : List MItem} (hne : l ≠ []) :
    handleKeyDown true ⟨"ArrowUp", false, false⟩ l 0 = .setIndex 0 := by
  have hlen : l.length ≠ 0 := fun h => hne (List.length_eq_zero.mp h)
  simp [handleKeyDown, hlen, jsIndex]

/-- Landing on a separator going forward advances exactly one more step. -/
theorem handleKeyDown_next_skip {l : List MItem} {i : Nat} {a : MItem}
    (ha : l[i + 1]? = some a) (hsep : isSep a = true)
    (hlast : ∀ b, l.getLast? = some b → isSep b = false) :
    handleKeyDown true ⟨"ArrowDown", false, false⟩ l i = .setIndex (i + 2) := by
  have hi1 : i + 1 < l.length := by
    rcases List.getElem?_eq_some.mp ha with ⟨h, _⟩
    exact h
  have hlen : l.length ≠ 0 := by omega
  have hi2 : i + 1 ≠ l.length - 1 := by
    intro heq
    have hg : l.getLast? = some a := by
      rw [List.getLast?_eq_getElem?, ← heq]
      exact ha
    rw [hlast a hg] at hsep
    cases hsep
  have hmin : min (i + 1 + 1) (l.length - 1) = i + 2 := by omega
  simp [handleKeyDown, hlen, ha, hsep, hmin]

/-- Landing on a separator going backward retreats exactly one more step. -/
theorem handleKeyDown_prev_skip {l : List MItem} {i : Nat} {a : MItem}
    (ha : l[i]? = some a) (hsep : isSep a = true) :
    handleKeyDown true ⟨"ArrowUp", false, false⟩ l (i + 1) = .setIndex (i - 1) := by
  have hi : i < l.length := by
    rcases List.getElem?_eq_some.mp ha with ⟨h, _⟩
    exact h
  have hlen : l.length ≠ 0 := by omega
  have hidx : ((i + 1 : Nat) : Int) - 1 = (i : Int) := by omega
  have hnn : ¬((i : Int) < 0) := by omega
  have htn : (max (0 : Int) ((i : Int) - 1)).toNat = i - 1 := by omega
  simp [handleKeyDown, hlen, jsIndex, hidx, hnn, ha, hsep, htn]

/-- Survivors of the filter step in filterable mode with non-empty search
satisfy the case-insensitive containment test. -/
theorem menuFilterPred_containment {commands : String → Bool} {uploadFile : Bool}
    {search searchInput : String} {item : MItem}
    (hsep : item.name ≠ "separator") (hsearch : search ≠ "")
    (h : menuFilterPred commands uploadFile true search searchInput item = true) :
    includesLower (item.title.getD "") searchInput = true ∨
    includesLower (item.keywords.getD "") searchInput = true := by
  unfold menuFilterPred at h
  rw [if_neg hsep, if_neg hsearch] at h
  simp only [Bool.not_true, Bool.false_eq_true, if_false] at h
  split at h
  · simp at h
  · split at h
    · simp at h
    · rw [Bool.or_eq_true] at h
      exact h

/-- C1: in filterable mode, for every non-empty search string and every
item list, every candidate that survives the recomputed `filtered`
pipeline — a candidate being an actionable entry, not the decorative
separator entries the pipeline deliberately keeps and collapses — has a
title or keywords containing the search string case-insensitively.  The
quantification over `search`, `embeds` and `propsItems` covers the
recomputation performed after every keystroke. -/
theorem menu_search_containment (commands : String → Bool) (score : String → String → ℚ)
    (uploadFile : Bool) (search : String) (embeds propsItems : List MItem) (item : MItem)
    (hsearch : search ≠ "")
    (hmem : item ∈ menuFiltered commands score uploadFile true search embeds propsItems)
    (hnotsep : item.name ≠ "separator") :
    includesLower (item.title.getD "") (lowerStr search) = true ∨
    includesLower (item.keywords.getD "") (lowerStr search) = true := by
  simp only [menuFiltered] at hmem
  have h1 := mem_filterExcessSeparators hmem
  have h2 := mem_sortComparator h1
  have h3 := (List.mem_filter.mp h2).2
  exact menuFilterPred_containment hnotsep hsearch h3

/-- Witness for C1: the first heading survives the pipeline for search
string "head" and indeed contains it case-insensitively. -/
theorem menu_search_containment_w :
    ("head" : String) ≠ "" ∧
    scenarioHeading1 ∈ menuFiltered (fun _ => true) (fun _ _ => 0) false true "head" []
      [scenarioHeading1, scenarioHeading2, scenarioImage] ∧
    scenarioHeading1.name ≠ "separator" ∧
    (includesLower (scenarioHeading1.title.getD "") (lowerStr "head") = true ∨
     includesLower (scenarioHeading1.keywords.getD "") (lowerStr "head") = true) := by
  have hs : ("head" : String) ≠ "" := by decide
  have hm : scenarioHeading1 ∈ menuFiltered (fun _ => true) (fun _ _ => 0) false true "head" []
      [scenarioHeading1, scenarioHeading2, scenarioImage] := by decide
  have hn : scenarioHeading1.name ≠ "separator" := by decide
  exact ⟨hs, hm, hn, menu_search_containment (fun _ => true) (fun _ _ => 0) false "head" []
    [scenarioHeading1, scenarioHeading2, scenarioImage] scenarioHeading1 hs hm hn⟩

/-- C2: for every non-empty candidate list produced by the pipeline, the
list ends in a real (non-separator) entry; the next chord at that last
entry stays there and the previous chord at index 0 stays at 0; and when
a move lands on a separator, exactly one additional step is taken past
it in the direction of travel. -/
theorem menu_navigation_clamps (commands : String → Bool) (score : String → String → ℚ)
    (uploadFile filterable : Bool) (search : String) (embeds propsItems : List MItem)
    (l : List MItem)
    (hl : l = menuFiltered commands score uploadFile filterable search embeds propsItems)
    (hne : l ≠ []) :
    (∀ a, l.getLast? = some a → isSep a = false) ∧
    handleKeyDown true ⟨"ArrowDown", false, false⟩ l (l.length - 1) = .setIndex (l.length - 1) ∧
    handleKeyDown true ⟨"ArrowUp", false, false⟩ l 0 = .setIndex 0 ∧
    (∀ i a, l[i + 1]? = some a → isSep a = true →
      handleKeyDown true ⟨"ArrowDown", false, false⟩ l i = .setIndex (i + 2)) ∧
    (∀ i a, l[i]? = some a → isSep a = true →
      handleKeyDown true ⟨"ArrowUp", false, false⟩ l (i + 1) = .setIndex (i - 1)) := by
  have hlast : ∀ a, l.getLast? = some a → isSep a = false := by
    intro a h
    subst hl
    exact getLast_filterExcessSeparators h
  exact ⟨hlast, handleKeyDown_next_at_last hne, handleKeyDown_prev_at_zero hne,
    fun i a ha hs => handleKeyDown_next_skip ha hs hlast,
    fun i a ha hs => handleKeyDown_prev_skip ha hs⟩

/-- Witness for C2: a concrete pipeline output (one item, one separator,
one embed entry) on which the next chord clamps at the last real entry. -/
theorem menu_navigation_clamps_w :
    menuFiltered (fun _ => true) (fun _ _ => 0) true true "" [embedTube] [scenarioHeading1] ≠ [] ∧
    handleKeyDown true ⟨"ArrowDown", false, false⟩
        (menuFiltered (fun _ => true) (fun _ _ => 0) true true "" [embedTube] [scenarioHeading1])
        ((menuFiltered (fun _ => true) (fun _ _ => 0) true true "" [embedTube] [scenarioHeading1]).length - 1)
      = .setIndex ((menuFiltered (fun _ => true) (fun _ _ => 0) true true "" [embedTube] [scenarioHeading1]).length - 1) := by
  have hne : menuFiltered (fun _ => true) (fun _ _ => 0) true true "" [embedTube] [scenarioHeading1] ≠ [] := by
    decide
  exact ⟨hne, (menu_navigation_clamps (fun _ => true) (fun _ _ => 0) true true "" [embedTube]
    [scenarioHeading1] _ rfl hne).2.1⟩

/-- C3: for every anchor rectangle and measured panel size, the active
positioner reports `isAbove = false` (panel anchored above, expressed as
a `bottom` offset with `top` undefined) exactly when the space above the
anchor exceeds the panel height plus the fixed 12-pixel margin, and
otherwise reports `isAbove = true` with a `top` offset and `bottom`
undefined. -/
theorem position_above_below_decision (rtl : Bool) (fromPos toPos : JSRect) (w h : ℚ)
    (parent : JSRect) (innerW : ℚ) :
    ((calculatePosition true rtl (some (fromPos, toPos)) (some (w, h)) (some parent) innerW).isAbove = false
      ↔ h + 12 < min fromPos.top toPos.top) ∧
    (if (calculatePosition true rtl (some (fromPos, toPos)) (some (w, h)) (some parent) innerW).isAbove
     then (calculatePosition true rtl (some (fromPos, toPos)) (some (w, h)) (some parent) innerW).top.isSome = true ∧
          (calculatePosition true rtl (some (fromPos, toPos)) (some (w, h)) (some parent) innerW).bottom = none
     else (calculatePosition true rtl (some (fromPos, toPos)) (some (w, h)) (some parent) innerW).bottom.isSome = true ∧
          (calculatePosition true rtl (some (fromPos, toPos)) (some (w, h)) (some parent) innerW).top = none) := by
  by_cases hc : 12 < min fromPos.top toPos.top - h
  · have hiso : (calculatePosition true rtl (some (fromPos, toPos)) (some (w, h)) (some parent) innerW).isAbove = false := by
      simp [calculatePosition, caretRect, hc]
    refine ⟨?_, ?_⟩
    · rw [hiso]
      exact iff_of_true rfl (by linarith)
    · rw [hiso]
      simp [calculatePosition, caretRect, hc]
  · have hiso : (calculatePosition true rtl (some (fromPos, toPos)) (some (w, h)) (some parent) innerW).isAbove = true := by
      simp [calculatePosition, caretRect, hc]
    refine ⟨?_, ?_⟩
    · rw [hiso]
      refine iff_of_false (by simp) ?_
      push_neg at hc
      intro hlt
      have h2 : (12:ℚ) < min fromPos.top toPos.top - h := by linarith
      exact absurd h2 (by push_neg; linarith)
    · rw [hiso]
      simp [calculatePosition, caretRect, hc]

/-- C4, counterexample: when the anchor lookup fails while the menu is
active, the positioner does not return the fixed off-screen
`defaultPosition`; it substitutes a zero rectangle and computes an
ordinary position from it (here anchored below with `left = 0`, not
`left = -10000`).  The claim that all coordinates degrade to the fixed
default therefore fails on this input. -/
theorem position_failure_not_default :
    calculatePosition true false none (some (100, 50)) (some ⟨0, 0, 0, 0⟩) 1000 ≠ defaultPosition := by
  intro h
  have h2 := congrArg PosOut.isAbove h
  rw [show (calculatePosition true false none (some (100, 50)) (some ⟨0, 0, 0, 0⟩) 1000).isAbove = true by
    norm_num [calculatePosition, caretRect]] at h2
  simp [defaultPosition] at h2

/-- C4, amended: on anchor-lookup failure the positioner does not raise;
it behaves exactly as if the anchor were the zero rectangle, so the
caller still receives a well-formed position (anchored below whenever
the panel height is non-negative).  The fixed off-screen
`defaultPosition` is returned only while the menu is inactive. -/
theorem position_failure_degrades (isActive rtl : Bool) (refMeasure : Option (ℚ × ℚ))
    (parentRect : Option JSRect) (innerW : ℚ) :
    calculatePosition isActive rtl none refMeasure parentRect innerW =
      calculatePosition isActive rtl (some (⟨0, 0, 0, 0⟩, ⟨0, 0, 0, 0⟩)) refMeasure parentRect innerW ∧
    calculatePosition false rtl none refMeasure parentRect innerW = defaultPosition ∧
    (∀ w h : ℚ, 0 ≤ h →
      (calculatePosition true rtl none (some (w, h)) parentRect innerW).isAbove = true) := by
  refine ⟨?_, rfl, fun w h hh => ?_⟩
  · have hcr : caretRect (some (⟨0, 0, 0, 0⟩, ⟨0, 0, 0, 0⟩)) = caretRect none := by
      simp [caretRect]
    simp only [calculatePosition, hcr]
  · have h1 : ¬((12:ℚ) < -h) := by linarith
    have h2 : ¬((12:ℚ) < 0 - h) := by linarith
    simp [calculatePosition, caretRect, h1, h2]

/-- Witness for C4's amended theorem at a concrete measured panel. -/
theorem position_failure_degrades_w :
    calculatePosition true false none (some (100, 50)) (some ⟨0, 0, 0, 0⟩) 1000 =
      calculatePosition true false (some (⟨0, 0, 0, 0⟩, ⟨0, 0, 0, 0⟩)) (some (100, 50)) (some ⟨0, 0, 0, 0⟩) 1000 ∧
    (0 : ℚ) ≤ 50 ∧
    (calculatePosition true false none (some (100, 50)) (some ⟨0, 0, 0, 0⟩) 1000).isAbove = true :=
  ⟨(position_failure_degrades true false (some (100, 50)) (some ⟨0, 0, 0, 0⟩) 1000).1,
   by norm_num,
   (position_failure_degrades true false (some (100, 50)) (some ⟨0, 0, 0, 0⟩) 1000).2.2 100 50 (by norm_num)⟩

/-- C5, counterexample: a non-empty text selection whose selected text is
empty while its content holds a non-empty node is inactive in the code
(the `TextSelection && !selectionText` early return) but active under
the spec's wording, so the claimed biconditional fails on this state. -/
theorem toolbar_activation_spec_mismatch :
    useIsActive emptyTextSelState = false ∧ specToolbarActive emptyTextSelState = true := by
  decide

/-- C5, amended: the activation predicate returns active exactly when a
link mark covers the position, or the selection is non-empty and is a
node selection of `hr` or `image`, or the selection is non-empty, is not
a node selection, is not a text selection whose selected text is empty,
and its content contains at least one non-empty node. -/
theorem toolbar_activation_characterisation (s : PMState) :
    useIsActive s = amendedToolbarActive s := by
  rcases s with ⟨link, hasSel, empty, kind, text, sizes⟩
  cases link
  · cases hasSel
    · simp [useIsActive, amendedToolbarActive]
    · cases empty
      · cases kind with
        | nodeSel t =>
          by_cases h1 : t = "hr"
          · simp [useIsActive, amendedToolbarActive, h1]
          · by_cases h2 : t = "image"
            · simp [useIsActive, amendedToolbarActive, h1, h2]
            · simp [useIsActive, amendedToolbarActive, h1, h2]
        | textSel =>
          by_cases ht : text = "" <;>
            simp [useIsActive, amendedToolbarActive, ht]
        | otherSel => simp [useIsActive, amendedToolbarActive]
      · simp [useIsActive, amendedToolbarActive]
  · simp [useIsActive, amendedToolbarActive]

/-- Helper for C6: on the "head" scenario the pipeline keeps exactly the
two heading entries, in an order decided by the sign of the (single)
comparator value the buggy one-argument comparator produces. -/
theorem menuFiltered_scenario (score : String → String → ℚ) :
    menuFiltered (fun _ => true) score false true "head" []
        [scenarioHeading1, scenarioHeading2, scenarioImage] =
      if score "Big heading" "head" ≤ 0 then [scenarioHeading1, scenarioHeading2]
      else [scenarioHeading2, scenarioHeading1] := by
  have hkey1 : menuSortKey score (lowerStr "head") scenarioHeading1 = score "Big heading" "head" := by
    have hlow : lowerStr "head" = "head" := by decide
    simp [menuSortKey, scenarioHeading1, strTruthy, hlow]
  have hfil : List.filter (menuFilterPred (fun _ => true) false true "head" (lowerStr "head"))
      (if (embedMenuItems []).length ≠ 0
       then [scenarioHeading1, scenarioHeading2, scenarioImage] ++ separatorItem :: embedMenuItems []
       else [scenarioHeading1, scenarioHeading2, scenarioImage])
      = [scenarioHeading1, scenarioHeading2] := by decide
  simp only [menuFiltered]
  rw [hfil]
  simp only [sortComparator, List.foldl, insertComparator]
  rw [hkey1]
  by_cases hq : score "Big heading" "head" ≤ 0
  · rw [if_pos hq]
    decide
  · rw [if_neg hq]
    decide

/-- C6: with search text "head", the given three-item list and no upload
capability, the pipeline excludes the "Image" item, retains exactly the
two heading entries, and lists them in an order sorted by their fuzzy
score against "head".  The external `command-score` package assigns both
titles the same score (both match "head" at a word boundary after an
unpenalised skip from position 0), which the hypothesis records. -/
theorem menu_scenario_head (score : String → String → ℚ)
    (hs : score "Big heading" "head" = score "Medium heading" "head") :
    (∀ it ∈ menuFiltered (fun _ => true) score false true "head" []
        [scenarioHeading1, scenarioHeading2, scenarioImage], it.name ≠ "image") ∧
    (menuFiltered (fun _ => true) score false true "head" []
        [scenarioHeading1, scenarioHeading2, scenarioImage] = [scenarioHeading1, scenarioHeading2] ∨
     menuFiltered (fun _ => true) score false true "head" []
        [scenarioHeading1, scenarioHeading2, scenarioImage] = [scenarioHeading2, scenarioHeading1]) ∧
    List.Chain' (fun a b => score (b.title.getD "") "head" ≤ score (a.title.getD "") "head")
      (menuFiltered (fun _ => true) score false true "head" []
        [scenarioHeading1, scenarioHeading2, scenarioImage]) := by
  have heq := menuFiltered_scenario score
  by_cases hq : score "Big heading" "head" ≤ 0
  · rw [if_pos hq] at heq
    rw [heq]
    refine ⟨?_, Or.inl rfl, ?_⟩
    · intro it hit
      simp only [List.mem_cons, List.not_mem_nil, or_false] at hit
      rcases hit with rfl | rfl <;> decide
    · simp only [List.chain'_cons, List.chain'_singleton, and_true, scenarioHeading1,
        scenarioHeading2, Option.getD_some]
      rw [hs]
  · rw [if_neg hq] at heq
    rw [heq]
    refine ⟨?_, Or.inr rfl, ?_⟩
    · intro it hit
      simp only [List.mem_cons, List.not_mem_nil, or_false] at hit
      rcases hit with rfl | rfl <;> decide
    · simp only [List.chain'_cons, List.chain'_singleton, and_true, scenarioHeading1,
        scenarioHeading2, Option.getD_some]
      rw [hs]

/-- Witness for C6 with a concrete scoring function. -/
theorem menu_scenario_head_w :
    ((fun _ _ => (0:ℚ)) "Big heading" "head" = (fun _ _ => (0:ℚ)) "Medium heading" "head") ∧
    (∀ it ∈ menuFiltered (fun _ => true) (fun _ _ => (0:ℚ)) false true "head" []
        [scenarioHeading1, scenarioHeading2, scenarioImage], it.name ≠ "image") :=
  ⟨rfl, (menu_scenario_head (fun _ _ => (0:ℚ)) rfl).1⟩

/-- C7, counterexample: pasting text rejected by the active candidate's
matcher performs no mutation but also shows no toast — the paste handler
simply returns, letting the text land in the input; this contradicts the
claim that a toast is shown on a non-matching paste. -/
theorem paste_mismatch_shows_no_toast :
    (handleLinkInputPaste true (some rejectingEmbed) "https://example.com").committedHref = none ∧
    (handleLinkInputPaste true (some rejectingEmbed) "https://example.com").toastShown = false := by
  constructor <;> rfl

/-- C7, amended: a paste whose text fails the matcher causes no document
mutation, no toast and no default-prevention, leaving the link-editing
sub-state as it was; a paste whose text matches auto-commits the embed
(with close) without requiring Enter; the invalid-link toast is shown
only by the Enter path of the keydown handler. -/
theorem paste_matcher_behaviour (it : InsertItem) (s : String) :
    (matcherAccepts it s = false →
      handleLinkInputPaste true (some it) s =
        { committedHref := none, toastShown := false, defaultPrevented := false, menuClosed := false }) ∧
    (matcherAccepts it s = true →
      handleLinkInputPaste true (some it) s =
        { committedHref := some s, toastShown := false, defaultPrevented := true, menuClosed := true }) ∧
    (matcherAccepts it s = false →
      handleLinkInputKeydown true (some it) "Enter" s =
        { committedHref := none, toastShown := true, menuClosed := false }) := by
  refine ⟨fun h => ?_, fun h => ?_, fun h => ?_⟩ <;>
    simp [handleLinkInputPaste, handleLinkInputKeydown, h]

/-- Witness for C7's amended theorem at a concrete rejecting matcher. -/
theorem paste_matcher_behaviour_w :
    matcherAccepts rejectingEmbed "x" = false ∧
    handleLinkInputPaste true (some rejectingEmbed) "x" =
      { committedHref := none, toastShown := false, defaultPrevented := false, menuClosed := false } :=
  ⟨rfl, (paste_matcher_behaviour rejectingEmbed "x").1 rfl⟩

/-- C8, counterexample: `SimpleImage` belongs to the basic preset but is
filtered out of the rich preset, so the rich list is not a superset of
the basic list as claimed. -/
theorem basic_preset_not_shared :
    ExtName.simpleImage ∈ basicExtensions ∧ ExtName.simpleImage ∉ richExtensions := by
  decide

/-- C8, amended: every descriptor of the basic preset except
`SimpleImage` also appears in the rich preset, and the rich preset adds
further descriptors (such as `Image`) rather than being a separate
schema. -/
theorem rich_preset_extends_basic :
    (∀ d, d ∈ basicExtensions → d ≠ ExtName.simpleImage → d ∈ richExtensions) ∧
    ExtName.image ∈ richExtensions ∧ ExtName.image ∉ basicExtensions := by
  decide

/-- Witness for C8's amended theorem at the `Bold` descriptor. -/
theorem rich_preset_extends_basic_w :
    ExtName.bold ∈ basicExtensions ∧ ExtName.bold ≠ ExtName.simpleImage ∧ ExtName.bold ∈ richExtensions :=
  ⟨by decide, by decide, rich_preset_extends_basic.1 ExtName.bold (by decide) (by decide)⟩

/-- C9, counterexample: both window-listener effects register their
listeners in the inactive state too — registration is tied to the
mounted lifetime, not to the `active`/`linkEditing` states — so the
claim that no controller-owned global listener is registered in an
inactive state fails. -/
theorem listeners_registered_while_inactive :
    suggestionsMenuAddsWindowListeners false = true ∧
    selectionToolbarAddsWindowListener false = true := ⟨rfl, rfl⟩

/-- C9, amended: the window listeners are registered unconditionally for
the mounted lifetime of the components (the effect cleanup removes them
on unmount, not on deactivation); while inactive, the menu's keydown
handler and the toolbar's mouseup handler return without acting, but the
menu's mousedown handler still closes on any press outside the menu
element, independent of the active state. -/
theorem listeners_mount_scoped :
    (∀ b, suggestionsMenuAddsWindowListeners b = true) ∧
    (∀ b, selectionToolbarAddsWindowListener b = true) ∧
    (∀ e l i, handleKeyDown false e l i = KeyAction.noAction) ∧
    (∀ t a v, selectionToolbarOutsideMouseupDispatches t false a v = false) ∧
    (∀ m t, suggestionsMenuOutsideMousedownCloses m t = (m && !t)) := by
  refine ⟨fun _ => rfl, fun _ => rfl, fun _ _ _ => rfl, fun t a v => ?_, fun m t => ?_⟩
  · cases t <;> rfl
  · cases m <;> cases t <;> rfl

/-- C10: whenever the selection toolbar's create-link action runs with a
collapsed selection (`from = to`), it returns before dispatching, so no
placeholder link mark is inserted and the document is unchanged. -/
theorem create_link_collapsed_noop (hasCb : Bool) (sf st : Nat) (u ti : String)
    (hcollapsed : sf = st) : handleOnCreateLink hasCb sf st u ti = none := by
  subst hcollapsed
  unfold handleOnCreateLink
  cases hasCb <;> simp

/-- Witness for C10 at a concrete collapsed selection. -/
theorem create_link_collapsed_noop_w :
    (5 : Nat) = 5 ∧ handleOnCreateLink true 5 5 "creating#" "New doc" = none :=
  ⟨rfl, create_link_collapsed_noop true 5 5 "creating#" "New doc" rfl⟩
